import Mathlib

/-!
# Shopping cart of `projectShoes/project/card.js`

A shallow embedding of the `Cart` module (lines 2-91 of `card.js`) and of the
cart-list click listener of `UIController.init` (lines 212-239).

Modelling decisions, all taken from the source:

* Line objects live in an object heap and arrays in an array heap, both
  addressed by position.  `cart` is a reference into the array heap, a line of the
  cart is a reference into the object heap.  In this way `existingItem.quantity +=`,
  `cart[index].quantity =`, `cart.push`, `cart.splice` are updates in place and
  `[...cart]` is a new array holding the same object references.
* A line object has the six properties written by `getProductFromCard` and
  `getProductFromModal`, in that order.  `quantity` is produced by
  `parseInt(..) || 1`, the literal `1` and steps of one, so it is an integer.
  `price` is produced by `parseFloat`, which yields `NaN` on text without digits,
  and comes back from `JSON.parse` as `null` when it was not finite; so `price` is
  a `JSValue`: `null` or a number, where a number is `NaN`, an infinity or a
  finite value.  Finite values are rationals with exact arithmetic (rounding and
  the sign of zero are not modelled).
* `localStorage`, `JSON.stringify` and `JSON.parse` belong to the platform.  A
  stored string is classified by what `JSON.parse` does with it: it is empty, it
  is not JSON text, or it is the text of a JSON document.
-/

namespace SreyNeath

/-! ## Numbers and values -/

/-- A JavaScript number: `NaN`, the two infinities, or a finite value. -/
inductive JSNumber where
  | nan
  | posInf
  | negInf
  | fin (q : Rat)
  deriving DecidableEq, Repr

namespace JSNumber

/-- The number of an integer. -/
def ofInt (n : Int) : JSNumber := fin n

/-- Binary `+` on numbers. -/
def add : JSNumber → JSNumber → JSNumber
  | nan, _ => nan
  | _, nan => nan
  | posInf, negInf => nan
  | negInf, posInf => nan
  | posInf, _ => posInf
  | _, posInf => posInf
  | negInf, _ => negInf
  | _, negInf => negInf
  | fin a, fin b => fin (a + b)

/-- An infinity times a finite factor: `NaN` for zero, otherwise the sign rule. -/
def scaleInf (positive : Bool) (q : Rat) : JSNumber :=
  if q = 0 then nan
  else if decide (0 < q) = positive then posInf
  else negInf

/-- Binary `*` on numbers. -/
def mul : JSNumber → JSNumber → JSNumber
  | nan, _ => nan
  | _, nan => nan
  | posInf, posInf => posInf
  | negInf, negInf => posInf
  | posInf, negInf => negInf
  | negInf, posInf => negInf
  | posInf, fin b => scaleInf true b
  | negInf, fin b => scaleInf false b
  | fin a, posInf => scaleInf true a
  | fin a, negInf => scaleInf false a
  | fin a, fin b => fin (a * b)

end JSNumber

/-- The values the `price` property holds: `null` or a number. -/
inductive JSValue where
  | null
  | number (x : JSNumber)
  deriving DecidableEq, Repr

/-- The conversion `ToNumber` applied by `*` to its operands: `null` becomes `0`. -/
def JSValue.toNumber : JSValue → JSNumber
  | .null => .fin 0
  | .number x => x

/-! ## Line objects, JSON documents and the stored string -/

/-- A line object of the cart, with the properties in the order in which
`getProductFromCard` and `getProductFromModal` create them. -/
structure CartLineItem where
  id : String
  name : String
  price : JSValue
  image : String
  size : String
  quantity : Int
  deriving DecidableEq, Repr

instance : Inhabited CartLineItem := ⟨⟨"", "", .null, "", "", 0⟩⟩

/-- A JSON document. -/
inductive Json where
  | null
  | bool (b : Bool)
  | num (q : Rat)
  | str (s : String)
  | arr (items : List Json)
  | obj (members : List (String × Json))

/-- The string held by the storage slot, classified by what `JSON.parse` does with it. -/
inductive StoredText where
  /-- The empty string. -/
  | empty
  /-- A non-empty string that is not JSON text, such as a lone opening brace. -/
  | malformed
  /-- The JSON text of `doc`. -/
  | json (doc : Json)

/-- Errors thrown by the program. -/
inductive JSError where
  | syntaxError
  | typeError
  | referenceError (name : String)
  deriving DecidableEq, Repr

/-- How a call ends: normally with the state it reached, by throwing an error in the state
reached until then, or with the variable `cart` holding a value that is not an array of line
objects, where this model stops. -/
inductive Completion (α : Type) where
  | normal (result : α)
  | throw (e : JSError) (state : α)
  | untyped

/-- What `JSON.stringify` writes for a `price`: `null` for `null`, `NaN` and the infinities. -/
def JSON.stringifyValue : JSValue → Json
  | .number (.fin q) => .num q
  | _ => .null

/-- What `JSON.stringify` writes for a line object. -/
def JSON.stringifyLine (item : CartLineItem) : Json :=
  .obj [("id", .str item.id), ("name", .str item.name), ("price", JSON.stringifyValue item.price),
    ("image", .str item.image), ("size", .str item.size), ("quantity", .num item.quantity)]

/-- What `JSON.stringify` writes for an array of line objects. -/
def JSON.stringify (items : List CartLineItem) : StoredText :=
  .json (.arr (items.map JSON.stringifyLine))

/-- The value `JSON.parse` builds for a `price` member, when it is `null` or a number. -/
def JSON.reviveValue : Json → Option JSValue
  | .null => some .null
  | .num q => some (.number (.fin q))
  | _ => none

/-- The line object `JSON.parse` builds from a member of the array, when the member is
an object with the six properties of a line, a `null` or numeric price and an integer
quantity. -/
def JSON.reviveLine : Json → Option CartLineItem
  | .obj [("id", .str i), ("name", .str n), ("price", p), ("image", .str im), ("size", .str sz),
      ("quantity", .num q)] =>
    match JSON.reviveValue p with
    | some price => if q.den = 1 then some ⟨i, n, price, im, sz, q.num⟩ else none
    | none => none
  | _ => none

/-- All members of an array revived as line objects, if every one is a line. -/
def JSON.reviveLines : List Json → Option (List CartLineItem)
  | [] => some []
  | j :: js =>
    match JSON.reviveLine j, JSON.reviveLines js with
    | some item, some items => some (item :: items)
    | _, _ => none

/-! ## The state of the page -/

/-- The `display` style of the count badge. -/
inductive Display where
  | inline
  | none
  deriving DecidableEq, Repr

/-- The element `#cart-count`: the number it shows and its `display` style. -/
structure Badge where
  textContent : Int
  display : Display
  deriving DecidableEq, Repr

/-- The state the `Cart` module works on. -/
structure Store where
  /-- Object heap: the line objects ever created, addressed by position. -/
  objs : List CartLineItem
  /-- Array heap: the arrays ever created, each a list of object references. -/
  arrs : List (List Nat)
  /-- The closure variable `cart`: a reference into the array heap. -/
  cart : Nat
  /-- The value of `localStorage` under the key `shoppingCart`, if any. -/
  slot : Option StoredText
  /-- The element `#cart-count`. -/
  badge : Badge
  /-- The messages passed to `showNotification`, oldest first. -/
  notifications : List String

namespace Store

/-- The object references held by the array `cart`. -/
def cartRefs (s : Store) : List Nat := s.arrs.getD s.cart []

/-- The object behind a reference. -/
def deref (s : Store) (r : Nat) : CartLineItem := s.objs.getD r default

/-- The contents of an array of the heap, as line values. -/
def arrayLines (s : Store) (a : Nat) : List CartLineItem := (s.arrs.getD a []).map s.deref

/-- The cart as the sequence of its lines. -/
def lines (s : Store) : List CartLineItem := s.cartRefs.map s.deref

/-- Well-formed stores: `cart` refers to an array, whose elements refer to objects,
and no object occurs twice in it. -/
def WF (s : Store) : Prop :=
  s.cart < s.arrs.length ∧ (∀ r ∈ s.cartRefs, r < s.objs.length) ∧ s.cartRefs.Nodup

instance (s : Store) : Decidable s.WF := by
  unfold WF
  infer_instance

/-- The module right after its definition: `let cart = []`, with the storage slot and
the badge as the page has them. -/
def fresh (slot : Option StoredText) (badge : Badge) : Store :=
  ⟨[], [[]], 0, slot, badge, []⟩

end Store

/-! ## The `Cart` module -/

/-- The constant `CART_STORAGE_KEY`. -/
def CART_STORAGE_KEY : String := "shoppingCart"

/-- The function `saveCart`: `localStorage.setItem(CART_STORAGE_KEY, JSON.stringify(cart))`. -/
def saveCart (s : Store) : Store :=
  { s with slot := some (JSON.stringify s.lines) }

/-- The function `updateCartCount`. -/
def updateCartCount (s : Store) : Store :=
  let totalItems := s.lines.foldl (fun total item => total + item.quantity) 0
  { s with badge := ⟨totalItems, if totalItems > 0 then .inline else .none⟩ }

/-- The function `showNotification`, as the message it puts on the page. -/
def showNotification (message : String) (s : Store) : Store :=
  { s with notifications := s.notifications ++ [message] }

namespace Cart

/-- The method `Cart.init`.  `JSON.parse` throws on text that is not JSON, before the
assignment to `cart`; on JSON text it builds new objects and a new array.  When the parsed
value is not an array of line objects (`null`, a number, an object, an array of something
else), `cart` holds that value and the model stops. -/
def init (s : Store) : Completion Store :=
  match s.slot with
  | none => .normal s
  | some .empty => .normal s
  | some .malformed => .throw .syntaxError s
  | some (.json (.arr members)) =>
    match JSON.reviveLines members with
    | some items =>
      .normal (updateCartCount
        { s with
          objs := s.objs ++ items
          arrs := s.arrs ++ [List.range' s.objs.length items.length]
          cart := s.arrs.length })
    | none => .untyped
  | some (.json _) => .untyped

/-- The callback of `cart.find` in `addItem`, on a reference of the array. -/
def sameLine (s : Store) (product : CartLineItem) (r : Nat) : Bool :=
  (s.deref r).id == product.id && (s.deref r).size == product.size

/-- The method `Cart.addItem`. -/
def addItem (product : CartLineItem) (s : Store) : Store :=
  let existingItem := s.cartRefs.find? (sameLine s product)
  let s1 : Store :=
    match existingItem with
    | some r =>
      { s with objs := s.objs.set r { s.deref r with quantity := (s.deref r).quantity + product.quantity } }
    | none =>
      { s with
        objs := s.objs ++ [product]
        arrs := s.arrs.set s.cart (s.cartRefs ++ [s.objs.length]) }
  showNotification (product.name ++ " added to cart!") (updateCartCount (saveCart s1))

/-- The method `Cart.removeItem`, on an integer index. -/
def removeItem (index : Int) (s : Store) : Bool × Store :=
  if index ≥ 0 ∧ index < s.cartRefs.length then
    let removedItem := s.deref (s.cartRefs.getD index.toNat 0)
    let s1 : Store := { s with arrs := s.arrs.set s.cart (s.cartRefs.eraseIdx index.toNat) }
    (true, showNotification (removedItem.name ++ " removed from cart") (updateCartCount (saveCart s1)))
  else
    (false, s)

/-- The method `Cart.updateQuantity`, on an integer index. -/
def updateQuantity (index : Int) (newQuantity : Int) (s : Store) : Bool × Store :=
  if index ≥ 0 ∧ index < s.cartRefs.length ∧ newQuantity > 0 then
    let r := s.cartRefs.getD index.toNat 0
    let s1 : Store := { s with objs := s.objs.set r { s.deref r with quantity := newQuantity } }
    (true, saveCart s1)
  else
    (false, s)

/-- The method `Cart.getCart`: a new array with the elements of `cart`; the result is
the reference of the new array. -/
def getCart (s : Store) : Nat × Store :=
  (s.arrs.length, { s with arrs := s.arrs ++ [s.cartRefs] })

/-- The method `Cart.getTotal`. -/
def getTotal (s : Store) : JSNumber :=
  s.lines.foldl
    (fun total item => total.add (item.price.toNumber.mul (JSNumber.ofInt item.quantity)))
    (.fin 0)

/-- The method `Cart.clearCart`. -/
def clearCart (s : Store) : Store :=
  updateCartCount (saveCart { s with arrs := s.arrs ++ [[]], cart := s.arrs.length })

end Cart

/-! ## Callers of the module -/

/-- A call of one of the four mutating methods of `Cart`. -/
inductive CartCall where
  | addItem (product : CartLineItem)
  | removeItem (index : Int)
  | updateQuantity (index : Int) (newQuantity : Int)
  | clearCart

/-- The state after a call. -/
def CartCall.run : CartCall → Store → Store
  | .addItem product, s => Cart.addItem product s
  | .removeItem index, s => (Cart.removeItem index s).2
  | .updateQuantity index newQuantity, s => (Cart.updateQuantity index newQuantity s).2
  | .clearCart, s => Cart.clearCart s

/-- The state after a sequence of calls, first call first. -/
def runCalls (calls : List CartCall) (s : Store) : Store :=
  calls.foldl (fun st call => call.run st) s

/-- What a caller can do to an array it received from `getCart`, or to make objects of
its own: give the array new contents (this covers `push`, `pop`, `splice` and assignment to
a position), or create an object. -/
inductive ArrayAction where
  | setContents (refs : List Nat)
  | newObject (item : CartLineItem)

/-- The state after an action of a caller on the array `a` it holds. -/
def ArrayAction.run (a : Nat) : ArrayAction → Store → Store
  | .setContents refs, s => { s with arrs := s.arrs.set a refs }
  | .newObject item, s => { s with objs := s.objs ++ [item] }

/-- The state after a sequence of actions of a caller on the array `a` it holds. -/
def runArrayActions (a : Nat) (actions : List ArrayAction) (s : Store) : Store :=
  actions.foldl (fun st action => action.run a st) s

/-- A caller executing `returned[i].quantity = q` on the array `a` it received. -/
def callerSetQuantity (a : Nat) (i : Nat) (q : Int) (s : Store) : Store :=
  let r := (s.arrs.getD a []).getD i 0
  { s with objs := s.objs.set r { s.deref r with quantity := q } }

/-! ## The cart list of `UIController` -/

/-- A row written by `renderCart` into `#cart-items`: what it shows, and the `data-index`
of its three controls. -/
structure CartRow where
  image : String
  name : String
  size : String
  quantity : Int
  /-- The number `item.price * item.quantity`, before `toFixed(2)`. -/
  subtotal : JSNumber
  index : Nat
  deriving DecidableEq, Repr

/-- The page: the state of `Cart`, the rows of `#cart-items` and the number shown in
`#cart-total` (before `toFixed(2)`). -/
structure Page where
  store : Store
  cartItems : List CartRow
  cartTotal : JSNumber

/-- The function `renderCart`. -/
def renderCart (p : Page) : Page :=
  let (cart, s1) := Cart.getCart p.store
  let rows := (s1.arrayLines cart).enum.map fun (index, item) =>
    (⟨item.image, item.name, item.size, item.quantity,
      item.price.toNumber.mul (JSNumber.ofInt item.quantity), index⟩ : CartRow)
  { store := s1, cartItems := rows, cartTotal := Cart.getTotal s1 }

/-- The class of the control found by the three `closest` calls of the listener. -/
inductive ControlClass where
  | removeItem
  | decreaseQuantity
  | increaseQuantity
  deriving DecidableEq, Repr

/-- The values the identifiers visible from the click listener are bound to. -/
inductive Binding where
  | eventObject
  | domElement
  | number (n : Int)
  | elementsCache
  | function
  | cartModule
  | uiControllerModule
  | builtin
  deriving DecidableEq, Repr

namespace UIController

/-- The scope chain of the click listener on `#cart-items`, innermost first: its parameter
and locals, the bindings of the `UIController` closure, the declarations at the top level of
the script, and the globals of the browser that the script uses.  The variable `cart` of
line 4 is local to the closure of `Cart` and the `cart` of line 112 is local to `renderCart`,
so neither is in this chain, and the script defines no global of that name (none of the
element ids it looks up is `cart`). -/
def listenerScope (index : Int) : List (String × Binding) :=
  [("e", .eventObject), ("target", .domElement), ("index", .number index),
    ("elements", .elementsCache), ("renderCart", .function),
    ("getProductFromModal", .function), ("getProductFromCard", .function),
    ("Cart", .cartModule), ("UIController", .uiControllerModule),
    ("changeImage", .function), ("increaseQuantity", .function),
    ("decreaseQuantity", .function),
    ("document", .builtin), ("localStorage", .builtin), ("JSON", .builtin),
    ("parseInt", .builtin), ("parseFloat", .builtin), ("Date", .builtin),
    ("setTimeout", .builtin), ("bootstrap", .builtin)]

/-- Evaluation of an identifier in the listener: its binding, or a `ReferenceError`. -/
def resolve (name : String) (index : Int) : Except JSError Binding :=
  match (listenerScope index).lookup name with
  | some b => .ok b
  | none => .error (.referenceError name)

/-- Evaluation of `b[index].quantity` on a value bound in the scope chain: none of them has
integer-keyed properties, so `b[index]` is `undefined` and reading `quantity` throws. -/
def quantityAt (_b : Binding) (_index : Int) : Except JSError Int :=
  .error .typeError

/-- The click listener that `UIController.init` registers on `#cart-items`.  `target` is the
control found by the three `closest` calls, with `parseInt(target.dataset.index)`. -/
def onCartItemsClick (target : Option (ControlClass × Int)) (p : Page) : Completion Page :=
  match target with
  | none => .normal p
  | some (.removeItem, index) =>
    .normal (renderCart { p with store := (Cart.removeItem index p.store).2 })
  | some (.decreaseQuantity, index) =>
    match resolve "cart" index with
    | .error e => .throw e p
    | .ok cart =>
      match quantityAt cart index with
      | .error e => .throw e p
      | .ok currentQty =>
        if currentQty > 1 then
          .normal (renderCart
            { p with store := (Cart.updateQuantity index (currentQty - 1) p.store).2 })
        else
          .normal (renderCart { p with store := (Cart.removeItem index p.store).2 })
  | some (.increaseQuantity, index) =>
    match resolve "cart" index with
    | .error e => .throw e p
    | .ok cart =>
      match quantityAt cart index with
      | .error e => .throw e p
      | .ok quantity =>
        .normal (renderCart
          { p with store := (Cart.updateQuantity index (quantity + 1) p.store).2 })

end UIController

/-! ## Properties used in the statements -/

/-- The test of `cart.find` in `addItem` as a proposition: `l` has the `id` and the `size`
of `product`. -/
def SameKey (product l : CartLineItem) : Prop := l.id = product.id ∧ l.size = product.size

instance (product l : CartLineItem) : Decidable (SameKey product l) := by
  unfold SameKey
  infer_instance

/-- The pair that identifies a line. -/
def lineKey (item : CartLineItem) : String × String := (item.id, item.size)

/-- No two lines of the sequence have the same `id` and the same `size`. -/
def UniqueKeys (c : List CartLineItem) : Prop := c.Pairwise fun a b => ¬ SameKey a b

instance (c : List CartLineItem) : Decidable (UniqueKeys c) := by
  unfold UniqueKeys
  infer_instance

/-- The amount of a line, `item.price * item.quantity`. -/
def lineAmount (item : CartLineItem) : JSNumber :=
  item.price.toNumber.mul (JSNumber.ofInt item.quantity)

instance : Add JSNumber := ⟨JSNumber.add⟩

instance : Zero JSNumber := ⟨.fin 0⟩

/-- The sum of the quantities of the lines, as the specification words the badge number. -/
def totalQuantity (c : List CartLineItem) : Int := (c.map fun item => item.quantity).sum

/-- What the actions of a caller on an array of its own keep of a store `s`: the variable
`cart`, the contents of the array behind it, and the objects that existed. -/
def KeepsCart (s : Store) (st : Store) : Prop :=
  st.cart = s.cart ∧ st.arrs.getD s.cart [] = s.cartRefs ∧ s.objs <+: st.objs

/-! ## Sample states -/

/-- A sample product: shoe A in size M at 50, one piece. -/
def sampleShoeA : CartLineItem := ⟨"A", "Shoe A", .number (.fin 50), "a.png", "M", 1⟩

/-- A sample product: shoe B in size L at 99/2, two pieces. -/
def sampleShoeB : CartLineItem := ⟨"B", "Shoe B", .number (.fin (99 / 2)), "b.png", "L", 2⟩

/-- The page before any call: empty cart, nothing stored, badge hidden. -/
def sampleEmpty : Store := Store.fresh none ⟨0, .none⟩

/-- The cart after adding shoe A and then shoe B to the empty cart. -/
def sampleTwoLines : Store := Cart.addItem sampleShoeB (Cart.addItem sampleShoeA sampleEmpty)

/-- A run of calls: shoe A, shoe B, shoe A again, an update of line 1, a removal out of
range. -/
def sampleCalls : List CartCall :=
  [.addItem sampleShoeA, .addItem sampleShoeB, .addItem sampleShoeA, .updateQuantity 1 5,
    .removeItem 7]

/-- A page whose storage slot holds text that is not JSON. -/
def sampleCorrupt : Store := Store.fresh (some .malformed) ⟨0, .none⟩

/-! ## Heap lemmas -/

theorem getD_set_ne {α : Type} (l : List α) (r x : Nat) (v d : α) (h : x ≠ r) :
    (l.set r v).getD x d = l.getD x d := by
  simp [List.getElem?_set_ne (Ne.symm h)]

theorem getD_set_self {α : Type} (l : List α) (r : Nat) (v d : α) (h : r < l.length) :
    (l.set r v).getD r d = v := by
  simp [List.getElem?_set_self h]

theorem getD_append_left {α : Type} (l m : List α) (x : Nat) (d : α) (h : x < l.length) :
    (l ++ m).getD x d = l.getD x d := by
  simp [List.getElem?_append_left h]

theorem getD_append_length {α : Type} (l : List α) (v d : α) :
    (l ++ [v]).getD l.length d = v := by
  simp

theorem map_getD_set_of_not_mem {α : Type} (objs : List α) (refs : List Nat) (r : Nat) (v d : α)
    (h : r ∉ refs) :
    refs.map (fun x => (objs.set r v).getD x d) = refs.map (fun x => objs.getD x d) := by
  apply List.map_congr_left
  intro x hx
  exact getD_set_ne objs r x v d (fun e => h (e ▸ hx))

/-- Writing the object behind the reference at position `as.length` of a duplicate-free
reference list changes exactly that position of the dereferenced list. -/
theorem map_getD_set_of_nodup {α : Type} (objs : List α) (as bs : List Nat) (r : Nat) (v d : α)
    (hnd : (as ++ r :: bs).Nodup) (hr : r < objs.length) :
    (as ++ r :: bs).map (fun x => (objs.set r v).getD x d)
      = ((as ++ r :: bs).map (fun x => objs.getD x d)).set as.length v := by
  have h1 : r ∉ as := by
    intro h
    have := List.nodup_append.1 hnd
    exact this.2.2 h (List.mem_cons_self _ _)
  have h2 : r ∉ bs := by
    have := (List.nodup_append.1 hnd).2.1
    exact (List.nodup_cons.1 this).1
  rw [List.map_append, List.map_cons, List.map_append, List.map_cons,
    map_getD_set_of_not_mem objs as r v d h1, map_getD_set_of_not_mem objs bs r v d h2,
    getD_set_self objs r v d hr]
  have hl : as.length = (as.map (fun x => objs.getD x d)).length := by simp
  rw [hl, List.set_append_right _ _ (Nat.le_refl _)]
  simp

theorem sameLine_iff (s : Store) (product : CartLineItem) (r : Nat) :
    Cart.sameLine s product r = true ↔ SameKey product (s.deref r) := by
  simp [Cart.sameLine, SameKey]

@[simp] theorem lines_saveCart (s : Store) : (saveCart s).lines = s.lines := rfl

@[simp] theorem lines_updateCartCount (s : Store) : (updateCartCount s).lines = s.lines := rfl

@[simp] theorem lines_showNotification (m : String) (s : Store) :
    (showNotification m s).lines = s.lines := rfl

theorem lines_eq (s : Store) : s.lines = s.cartRefs.map (fun x => s.objs.getD x default) := rfl

/-- The lines after `existingItem.quantity += product.quantity` on the object `r`. -/
theorem lines_set_obj (s : Store) (as bs : List Nat) (r : Nat) (v : CartLineItem)
    (h : s.WF) (hrefs : s.cartRefs = as ++ r :: bs) :
    ({ s with objs := s.objs.set r v } : Store).lines = s.lines.set as.length v := by
  obtain ⟨_, hvalid, hnd⟩ := h
  have hr : r < s.objs.length := hvalid r (by rw [hrefs]; simp)
  rw [hrefs] at hnd
  show (s.arrs.getD s.cart []).map (fun x => (s.objs.set r v).getD x default) = _
  rw [lines_eq]
  have hc : s.arrs.getD s.cart [] = as ++ r :: bs := hrefs
  rw [hc, hrefs]
  exact map_getD_set_of_nodup s.objs as bs r v default hnd hr

/-- The lines after `cart.push` of a new object. -/
theorem lines_push (s : Store) (product : CartLineItem) (h : s.WF) :
    ({ s with objs := s.objs ++ [product],
              arrs := s.arrs.set s.cart (s.cartRefs ++ [s.objs.length]) } : Store).lines
      = s.lines ++ [product] := by
  obtain ⟨hc, hvalid, _⟩ := h
  show ((s.arrs.set s.cart (s.cartRefs ++ [s.objs.length])).getD s.cart []).map
      (fun x => (s.objs ++ [product]).getD x default) = _
  rw [getD_set_self _ _ _ _ hc, List.map_append, lines_eq]
  congr 1
  · apply List.map_congr_left
    intro x hx
    exact getD_append_left _ _ _ _ (hvalid x hx)
  · simp

theorem addItem_lines_found (s : Store) (product : CartLineItem) (r : Nat)
    (hf : s.cartRefs.find? (Cart.sameLine s product) = some r) :
    (Cart.addItem product s).lines
      = ({ s with
            objs := s.objs.set r { s.deref r with quantity := (s.deref r).quantity + product.quantity } } :
          Store).lines := by
  simp [Cart.addItem, hf]

theorem addItem_lines_absent (s : Store) (product : CartLineItem)
    (hf : s.cartRefs.find? (Cart.sameLine s product) = none) :
    (Cart.addItem product s).lines
      = ({ s with objs := s.objs ++ [product],
                  arrs := s.arrs.set s.cart (s.cartRefs ++ [s.objs.length]) } : Store).lines := by
  simp [Cart.addItem, hf]

/-- What `cart.find` returns in `addItem`, in terms of the lines of the cart. -/
theorem find_sameLine_cases (s : Store) (product : CartLineItem) :
    (∃ r as bs, s.cartRefs.find? (Cart.sameLine s product) = some r ∧ s.cartRefs = as ++ r :: bs ∧
        SameKey product (s.deref r) ∧ s.lines[as.length]? = some (s.deref r) ∧
        ∀ j l, j < as.length → s.lines[j]? = some l → ¬ SameKey product l) ∨
    (s.cartRefs.find? (Cart.sameLine s product) = none ∧ ∀ l ∈ s.lines, ¬ SameKey product l) := by
  cases hf : s.cartRefs.find? (Cart.sameLine s product) with
  | none =>
    right
    refine ⟨rfl, ?_⟩
    intro l hl
    rw [List.find?_eq_none] at hf
    obtain ⟨x, hx, rfl⟩ := List.mem_map.1 hl
    intro hk
    exact hf x hx ((sameLine_iff s product x).2 hk)
  | some r =>
    left
    obtain ⟨hp, as, bs, hrefs, hbefore⟩ := List.find?_eq_some.1 hf
    refine ⟨r, as, bs, rfl, hrefs, (sameLine_iff s product r).1 hp, ?_, ?_⟩
    · unfold Store.lines
      rw [hrefs, List.map_append, List.getElem?_append_right (by simp)]
      simp
    · intro j l hj hl hk
      unfold Store.lines at hl
      rw [hrefs, List.map_append, List.getElem?_append_left (by simpa using hj)] at hl
      rw [List.getElem?_map] at hl
      cases hx : as[j]? with
      | none => simp [hx] at hl
      | some x =>
        simp [hx] at hl
        have hmem : x ∈ as := List.getElem?_mem hx
        have := hbefore x hmem
        rw [← hl] at hk
        have hk2 := (sameLine_iff s product x).2 hk
        simp [hk2] at this

theorem map_eraseIdx {α β : Type} (f : α → β) (l : List α) (i : Nat) :
    (l.eraseIdx i).map f = (l.map f).eraseIdx i := by
  induction l generalizing i with
  | nil => rfl
  | cons a l ih =>
    cases i with
    | zero => rfl
    | succ i => simp [List.eraseIdx, ih]

theorem length_lines (s : Store) : s.lines.length = s.cartRefs.length := by
  simp [Store.lines]

/-- The lines after `cart.splice(index, 1)`. -/
theorem lines_splice (s : Store) (i : Nat) (h : s.WF) :
    ({ s with arrs := s.arrs.set s.cart (s.cartRefs.eraseIdx i) } : Store).lines
      = s.lines.eraseIdx i := by
  obtain ⟨hc, _, _⟩ := h
  show ((s.arrs.set s.cart (s.cartRefs.eraseIdx i)).getD s.cart []).map
      (fun x => s.objs.getD x default) = _
  rw [getD_set_self _ _ _ _ hc, lines_eq, map_eraseIdx]

/-- The lines after `cart[index].quantity = newQuantity`. -/
theorem lines_assign (s : Store) (i : Nat) (v : CartLineItem) (h : s.WF)
    (hi : i < s.cartRefs.length) :
    ({ s with objs := s.objs.set (s.cartRefs.getD i 0) v } : Store).lines = s.lines.set i v := by
  have hsplit : s.cartRefs = s.cartRefs.take i ++ s.cartRefs.getD i 0 :: s.cartRefs.drop (i + 1) := by
    have : s.cartRefs.getD i 0 = s.cartRefs[i] := by simp [List.getElem?_eq_getElem hi]
    rw [this, ← List.drop_eq_getElem_cons hi, List.take_append_drop]
  have := lines_set_obj s _ _ _ v h hsplit
  rw [this]
  congr 1
  simp [Nat.min_eq_left (Nat.le_of_lt hi)]

/-! ## C1: `addItem` -/

/-- C1. For every well-formed store and every product: if some line of the cart has the
id and the size of the product, then at the first such position `i` the line becomes the old
line with `quantity` increased by `product.quantity`, all its other fields and all other
lines stay as they are and the length is unchanged; if no line has them, the new cart is the
old cart followed by one line equal to the product, and the length grows by one. -/
theorem addItem_merges_or_appends (s : Store) (product : CartLineItem) (h : s.WF) :
    ((∃ l ∈ s.lines, SameKey product l) →
      ∃ i old, s.lines[i]? = some old ∧ SameKey product old ∧
        (∀ j l, j < i → s.lines[j]? = some l → ¬ SameKey product l) ∧
        (Cart.addItem product s).lines
          = s.lines.set i { old with quantity := old.quantity + product.quantity } ∧
        (∀ j, j ≠ i → (Cart.addItem product s).lines[j]? = s.lines[j]?) ∧
        (Cart.addItem product s).lines.length = s.lines.length) ∧
    ((¬ ∃ l ∈ s.lines, SameKey product l) →
      (Cart.addItem product s).lines = s.lines ++ [product] ∧
      (Cart.addItem product s).lines.length = s.lines.length + 1) := by
  rcases find_sameLine_cases s product with ⟨r, as, bs, hf, hrefs, hk, hget, hfirst⟩ | ⟨hf, hnone⟩
  · have hl : (Cart.addItem product s).lines
        = s.lines.set as.length { s.deref r with quantity := (s.deref r).quantity + product.quantity } := by
      rw [addItem_lines_found s product r hf]
      exact lines_set_obj s as bs r _ h hrefs
    constructor
    · intro _
      refine ⟨as.length, s.deref r, hget, hk, hfirst, hl, ?_, ?_⟩
      · intro j hj
        rw [hl, List.getElem?_set_ne (Ne.symm hj)]
      · rw [hl, List.length_set]
    · intro hno
      exact absurd ⟨s.deref r, List.getElem?_mem hget, hk⟩ hno
  · have hl : (Cart.addItem product s).lines = s.lines ++ [product] := by
      rw [addItem_lines_absent s product hf]
      exact lines_push s product h
    constructor
    · rintro ⟨l, hl1, hl2⟩
      exact absurd hl2 (hnone l hl1)
    · intro _
      refine ⟨hl, ?_⟩
      rw [hl, List.length_append]
      rfl

/-- C1 at a sample: adding shoe A, size M, again to a cart that holds it keeps the
length. -/
theorem addItem_merges_or_appends_witness :
    sampleTwoLines.WF ∧ (∃ l ∈ sampleTwoLines.lines, SameKey sampleShoeA l) ∧
      (Cart.addItem sampleShoeA sampleTwoLines).lines.length = sampleTwoLines.lines.length :=
  ⟨by decide, by decide,
    match (addItem_merges_or_appends sampleTwoLines sampleShoeA (by decide)).1 (by decide) with
    | ⟨_, _, _, _, _, _, _, hlen⟩ => hlen⟩

/-! ## C2: `removeItem` -/

/-- C2. For every well-formed store and every integer index, `removeItem` returns `true`
exactly when `0 <= index < length`; then the new cart is the old one without the element at
that position (the lines before it stay where they are, the lines after it move up by one),
one shorter; otherwise it returns `false` and the whole state (cart, stored value, badge,
notifications) is the one before the call. -/
theorem removeItem_in_range_only (s : Store) (index : Int) (h : s.WF) :
    ((Cart.removeItem index s).1 = true ↔ (0 ≤ index ∧ index < s.lines.length)) ∧
    ((0 ≤ index ∧ index < s.lines.length) →
      (Cart.removeItem index s).2.lines = s.lines.eraseIdx index.toNat ∧
      (∀ j, j < index.toNat → (Cart.removeItem index s).2.lines[j]? = s.lines[j]?) ∧
      (∀ j, index.toNat ≤ j → (Cart.removeItem index s).2.lines[j]? = s.lines[j + 1]?) ∧
      (Cart.removeItem index s).2.lines.length + 1 = s.lines.length) ∧
    (¬ (0 ≤ index ∧ index < s.lines.length) →
      (Cart.removeItem index s).1 = false ∧ (Cart.removeItem index s).2 = s) := by
  rw [length_lines]
  by_cases hc : index ≥ 0 ∧ index < s.cartRefs.length
  · have hl : (Cart.removeItem index s).2.lines = s.lines.eraseIdx index.toNat := by
      simp only [Cart.removeItem, if_pos hc, lines_showNotification, lines_updateCartCount,
        lines_saveCart]
      exact lines_splice s index.toNat h
    refine ⟨?_, ?_, ?_⟩
    · simp only [Cart.removeItem, if_pos hc]
      exact ⟨fun _ => hc, fun _ => trivial⟩
    · intro _
      refine ⟨hl, ?_, ?_, ?_⟩
      · intro j hj
        rw [hl, List.getElem?_eraseIdx_of_lt _ _ _ hj]
      · intro j hj
        rw [hl, List.getElem?_eraseIdx_of_ge _ _ _ hj]
      · have hlen := length_lines s
        have hlt : index.toNat < s.lines.length := by omega
        rw [hl, List.length_eraseIdx_of_lt hlt]
        omega
    · intro hn
      exact absurd hc hn
  · refine ⟨?_, ?_, ?_⟩
    · simp only [Cart.removeItem, if_neg hc]
      exact ⟨fun hf => absurd hf (by decide), fun hh => absurd hh hc⟩
    · intro hh
      exact absurd hh hc
    · intro _
      simp only [Cart.removeItem, if_neg hc]
      exact ⟨trivial, trivial⟩

/-- C2 at a sample: position 0 of the two-line cart is in range and `removeItem(0)`
returns `true`. -/
theorem removeItem_in_range_only_witness :
    sampleTwoLines.WF ∧
      ((Cart.removeItem 0 sampleTwoLines).1 = true ↔ ((0 : Int) ≤ 0 ∧ (0 : Int) < sampleTwoLines.lines.length)) :=
  ⟨by decide, (removeItem_in_range_only sampleTwoLines 0 (by decide)).1⟩

/-! ## C3: `updateQuantity` -/

theorem wf_fresh (slot : Option StoredText) (badge : Badge) : (Store.fresh slot badge).WF := by
  refine ⟨by simp [Store.fresh], ?_, ?_⟩ <;> simp [Store.fresh, Store.cartRefs]

theorem wf_of_heap_eq (s t : Store) (h : s.WF) (ho : t.objs.length = s.objs.length)
    (ha : t.arrs = s.arrs) (hc : t.cart = s.cart) : t.WF := by
  unfold Store.WF Store.cartRefs at *
  rw [ha, hc, ho]
  exact h

theorem wf_saveCart (s : Store) (h : s.WF) : (saveCart s).WF :=
  wf_of_heap_eq s _ h rfl rfl rfl

theorem wf_updateCartCount (s : Store) (h : s.WF) : (updateCartCount s).WF :=
  wf_of_heap_eq s _ h rfl rfl rfl

theorem wf_showNotification (m : String) (s : Store) (h : s.WF) : (showNotification m s).WF :=
  wf_of_heap_eq s _ h rfl rfl rfl

theorem wf_addItem (product : CartLineItem) (s : Store) (h : s.WF) :
    (Cart.addItem product s).WF := by
  unfold Cart.addItem
  apply wf_showNotification
  apply wf_updateCartCount
  apply wf_saveCart
  cases hf : s.cartRefs.find? (Cart.sameLine s product) with
  | some r => exact wf_of_heap_eq s _ h (by simp) rfl rfl
  | none =>
    obtain ⟨hc, hvalid, hnd⟩ := h
    have hrefs : (s.arrs.set s.cart (s.cartRefs ++ [s.objs.length])).getD s.cart []
        = s.cartRefs ++ [s.objs.length] := getD_set_self _ _ _ _ hc
    refine ⟨by simpa using hc, ?_, ?_⟩
    · intro r hr
      have hr2 : r ∈ s.cartRefs ++ [s.objs.length] := by
        rw [← hrefs]
        exact hr
      simp only [List.length_append, List.length_singleton]
      rcases List.mem_append.1 hr2 with hm | hm
      · exact Nat.lt_succ_of_lt (hvalid r hm)
      · simp at hm
        omega
    · show ((s.arrs.set s.cart (s.cartRefs ++ [s.objs.length])).getD s.cart []).Nodup
      rw [hrefs]
      apply List.Nodup.append hnd (List.nodup_singleton _)
      intro x hx1 hx2
      simp at hx2
      have := hvalid x hx1
      omega

theorem wf_removeItem (index : Int) (s : Store) (h : s.WF) : (Cart.removeItem index s).2.WF := by
  unfold Cart.removeItem
  split
  · apply wf_showNotification
    apply wf_updateCartCount
    apply wf_saveCart
    obtain ⟨hc, hvalid, hnd⟩ := h
    have hrefs : (s.arrs.set s.cart (s.cartRefs.eraseIdx index.toNat)).getD s.cart []
        = s.cartRefs.eraseIdx index.toNat := getD_set_self _ _ _ _ hc
    refine ⟨by simpa using hc, ?_, ?_⟩
    · intro r hr
      have hr2 : r ∈ s.cartRefs.eraseIdx index.toNat := by
        rw [← hrefs]
        exact hr
      exact hvalid r ((List.eraseIdx_sublist _ _).subset hr2)
    · show ((s.arrs.set s.cart (s.cartRefs.eraseIdx index.toNat)).getD s.cart []).Nodup
      rw [hrefs]
      exact hnd.sublist (List.eraseIdx_sublist _ _)
  · exact h

theorem wf_updateQuantity (index q : Int) (s : Store) (h : s.WF) :
    (Cart.updateQuantity index q s).2.WF := by
  unfold Cart.updateQuantity
  split
  · apply wf_saveCart
    exact wf_of_heap_eq s _ h (by simp) rfl rfl
  · exact h

theorem lines_clearCart (s : Store) : (Cart.clearCart s).lines = [] := by
  show ((s.arrs ++ [[]]).getD s.arrs.length []).map _ = []
  rw [getD_append_length]
  rfl

theorem wf_clearCart (s : Store) : (Cart.clearCart s).WF := by
  unfold Cart.clearCart
  apply wf_updateCartCount
  apply wf_saveCart
  refine ⟨by simp, ?_, ?_⟩ <;> simp [Store.cartRefs]

theorem wf_init (s u : Store) (h : Cart.init s = .normal u) (hs : s.WF) : u.WF := by
  unfold Cart.init at h
  split at h
  · cases h
    exact hs
  · cases h
    exact hs
  · cases h
  · split at h
    · cases h
      apply wf_updateCartCount
      rename_i items _
      have hrefs : (s.arrs ++ [List.range' s.objs.length items.length]).getD s.arrs.length []
          = List.range' s.objs.length items.length := getD_append_length _ _ _
      refine ⟨by simp, ?_, ?_⟩
      · intro r hr
        have hr2 : r ∈ List.range' s.objs.length items.length := by
          rw [← hrefs]
          exact hr
        have := List.mem_range'_1.1 hr2
        simp only [List.length_append]
        omega
      · show ((s.arrs ++ [List.range' s.objs.length items.length]).getD s.arrs.length []).Nodup
        rw [hrefs]
        exact List.nodup_range' _ _
    · cases h
  · cases h

theorem wf_getCart (s : Store) (h : s.WF) : (Cart.getCart s).2.WF := by
  obtain ⟨hc, hvalid, hnd⟩ := h
  have hrefs : (s.arrs ++ [s.cartRefs]).getD s.cart [] = s.cartRefs :=
    getD_append_left _ _ _ _ hc
  refine ⟨?_, ?_, ?_⟩
  · show s.cart < (s.arrs ++ [s.cartRefs]).length
    rw [List.length_append]
    exact Nat.lt_add_right _ hc
  · intro r hr
    have hr2 : r ∈ s.cartRefs := by
      rw [← hrefs]
      exact hr
    exact hvalid r hr2
  · show ((s.arrs ++ [s.cartRefs]).getD s.cart []).Nodup
    rw [hrefs]
    exact hnd

theorem wf_renderCart (p : Page) (h : p.store.WF) : (renderCart p).store.WF :=
  wf_getCart p.store h

theorem wf_run (call : CartCall) (s : Store) (h : s.WF) : (call.run s).WF := by
  cases call with
  | addItem product => exact wf_addItem product s h
  | removeItem index => exact wf_removeItem index s h
  | updateQuantity index q => exact wf_updateQuantity index q s h
  | clearCart => exact wf_clearCart s

theorem wf_runCalls (calls : List CartCall) (s : Store) (h : s.WF) : (runCalls calls s).WF := by
  induction calls generalizing s with
  | nil => exact h
  | cons call calls ih => exact ih (call.run s) (wf_run call s h)

/-! ## The lines after each method -/

/-- The two outcomes of `addItem` on the lines of a well-formed store. -/
theorem addItem_lines_cases (s : Store) (product : CartLineItem) (h : s.WF) :
    (∃ i old, s.lines[i]? = some old ∧ SameKey product old ∧
        (∀ j l, j < i → s.lines[j]? = some l → ¬ SameKey product l) ∧
        (Cart.addItem product s).lines
          = s.lines.set i { old with quantity := old.quantity + product.quantity }) ∨
    ((∀ l ∈ s.lines, ¬ SameKey product l) ∧
        (Cart.addItem product s).lines = s.lines ++ [product]) := by
  rcases find_sameLine_cases s product with ⟨r, as, bs, hf, hrefs, hk, hget, hfirst⟩ | ⟨hf, hnone⟩
  · left
    refine ⟨as.length, s.deref r, hget, hk, hfirst, ?_⟩
    rw [addItem_lines_found s product r hf]
    exact lines_set_obj s as bs r _ h hrefs
  · right
    refine ⟨hnone, ?_⟩
    rw [addItem_lines_absent s product hf]
    exact lines_push s product h

/-- The lines after an accepted `removeItem`. -/
theorem removeItem_lines (s : Store) (index : Int) (h : s.WF)
    (hc : index ≥ 0 ∧ index < s.cartRefs.length) :
    (Cart.removeItem index s).2.lines = s.lines.eraseIdx index.toNat := by
  simp only [Cart.removeItem, if_pos hc, lines_showNotification, lines_updateCartCount,
    lines_saveCart]
  exact lines_splice s index.toNat h

/-- The lines after an accepted `updateQuantity`. -/
theorem updateQuantity_lines (s : Store) (index q : Int) (h : s.WF)
    (hc : index ≥ 0 ∧ index < s.cartRefs.length ∧ q > 0) :
    ∃ old, s.lines[index.toNat]? = some old ∧
      (Cart.updateQuantity index q s).2.lines = s.lines.set index.toNat { old with quantity := q } := by
  have hlt : index.toNat < s.cartRefs.length := by omega
  refine ⟨s.deref (s.cartRefs.getD index.toNat 0), ?_, ?_⟩
  · unfold Store.lines
    rw [List.getElem?_map, List.getElem?_eq_getElem hlt]
    simp [List.getElem?_eq_getElem hlt]
  · simp only [Cart.updateQuantity, if_pos hc, lines_saveCart]
    exact lines_assign s index.toNat _ h hlt

/-! ## Uniqueness of `(id, size)` -/

theorem uniqueKeys_iff_nodup (c : List CartLineItem) :
    UniqueKeys c ↔ (c.map lineKey).Nodup := by
  unfold UniqueKeys List.Nodup
  rw [List.pairwise_map]
  apply Iff.intro <;> intro hp <;> refine hp.imp ?_
  · intro a b hab he
    apply hab
    simp only [lineKey, Prod.mk.injEq] at he
    exact ⟨he.1.symm, he.2.symm⟩
  · intro a b hab hk
    apply hab
    simp only [lineKey, Prod.mk.injEq]
    exact ⟨hk.1.symm, hk.2.symm⟩

/-- Uniqueness read by positions: two distinct positions never hold lines with the same
`id` and the same `size`. -/
theorem uniqueKeys_positions (ls : List CartLineItem) (hu : UniqueKeys ls) (i j : Nat)
    (li lj : CartLineItem) (hi : ls[i]? = some li) (hj : ls[j]? = some lj) (hne : i ≠ j) :
    ¬ (li.id = lj.id ∧ li.size = lj.size) := by
  obtain ⟨hi1, rfl⟩ := List.getElem?_eq_some.1 hi
  obtain ⟨hj1, rfl⟩ := List.getElem?_eq_some.1 hj
  have hp := List.pairwise_iff_getElem.1 hu
  rcases Nat.lt_or_gt_of_ne hne with hlt | hgt
  · intro hk
    exact hp i j hi1 hj1 hlt ⟨hk.1.symm, hk.2.symm⟩
  · intro hk
    exact hp j i hj1 hi1 hgt ⟨hk.1, hk.2⟩

theorem uniqueKeys_set_same_key (ls : List CartLineItem) (i : Nat) (old v : CartLineItem)
    (hold : ls[i]? = some old) (hkey : lineKey v = lineKey old) (hu : UniqueKeys ls) :
    UniqueKeys (ls.set i v) := by
  rw [uniqueKeys_iff_nodup] at *
  have : (ls.set i v).map lineKey = ls.map lineKey := by
    rw [List.map_set, hkey]
    apply List.ext_getElem?
    intro n
    by_cases hn : i = n
    · subst hn
      rw [List.getElem?_set_self', List.getElem?_map, hold]
      simp
    · rw [List.getElem?_set_ne hn]
  rw [this]
  exact hu

theorem uniqueKeys_addItem (product : CartLineItem) (s : Store) (h : s.WF)
    (hu : UniqueKeys s.lines) : UniqueKeys (Cart.addItem product s).lines := by
  rcases addItem_lines_cases s product h with ⟨i, old, hold, _, _, hl⟩ | ⟨hnone, hl⟩
  · rw [hl]
    exact uniqueKeys_set_same_key _ i old _ hold rfl hu
  · rw [hl]
    unfold UniqueKeys at *
    rw [List.pairwise_append]
    refine ⟨hu, List.pairwise_singleton _ _, ?_⟩
    intro a ha b hb
    simp only [List.mem_singleton] at hb
    subst hb
    intro hk
    exact hnone a ha ⟨hk.1.symm, hk.2.symm⟩

theorem uniqueKeys_removeItem (index : Int) (s : Store) (h : s.WF) (hu : UniqueKeys s.lines) :
    UniqueKeys (Cart.removeItem index s).2.lines := by
  by_cases hc : index ≥ 0 ∧ index < s.cartRefs.length
  · rw [removeItem_lines s index h hc]
    exact List.Pairwise.sublist (List.eraseIdx_sublist _ _) hu
  · simp only [Cart.removeItem, if_neg hc]
    exact hu

theorem uniqueKeys_updateQuantity (index q : Int) (s : Store) (h : s.WF)
    (hu : UniqueKeys s.lines) : UniqueKeys (Cart.updateQuantity index q s).2.lines := by
  by_cases hc : index ≥ 0 ∧ index < s.cartRefs.length ∧ q > 0
  · obtain ⟨old, hold, hl⟩ := updateQuantity_lines s index q h hc
    rw [hl]
    exact uniqueKeys_set_same_key _ _ old _ hold rfl hu
  · simp only [Cart.updateQuantity, if_neg hc]
    exact hu

theorem uniqueKeys_run (call : CartCall) (s : Store) (h : s.WF) (hu : UniqueKeys s.lines) :
    UniqueKeys (call.run s).lines := by
  cases call with
  | addItem product => exact uniqueKeys_addItem product s h hu
  | removeItem index => exact uniqueKeys_removeItem index s h hu
  | updateQuantity index q => exact uniqueKeys_updateQuantity index q s h hu
  | clearCart =>
    show UniqueKeys (Cart.clearCart s).lines
    rw [lines_clearCart]
    exact List.Pairwise.nil

theorem uniqueKeys_runCalls (calls : List CartCall) (s : Store) (h : s.WF)
    (hu : UniqueKeys s.lines) : UniqueKeys (runCalls calls s).lines := by
  induction calls generalizing s with
  | nil => exact hu
  | cons call calls ih => exact ih (call.run s) (wf_run call s h) (uniqueKeys_run call s h hu)

/-! ## C4: the `(id, size)` invariant -/

/-- C4. In every state reached from a well-formed store with an empty cart by any finite
sequence of `addItem`, `removeItem`, `updateQuantity` and `clearCart` calls with arbitrary
arguments, two distinct positions of the cart never hold lines with the same `id` and the
same `size`; and each of the four calls keeps this property of a well-formed store. -/
theorem unique_id_size_invariant :
    (∀ (s : Store) (calls : List CartCall), s.WF → s.lines = [] →
      ∀ (i j : Nat) (li lj : CartLineItem),
        (runCalls calls s).lines[i]? = some li → (runCalls calls s).lines[j]? = some lj → i ≠ j →
        ¬ (li.id = lj.id ∧ li.size = lj.size)) ∧
    (∀ (s : Store) (call : CartCall), s.WF → UniqueKeys s.lines → UniqueKeys (call.run s).lines) := by
  refine ⟨?_, fun s call h hu => uniqueKeys_run call s h hu⟩
  intro s calls h hempty i j li lj hi hj hne
  have hu : UniqueKeys s.lines := by
    rw [hempty]
    exact List.Pairwise.nil
  exact uniqueKeys_positions _ (uniqueKeys_runCalls calls s h hu) i j li lj hi hj hne

/-- C4 on the sample run from the empty cart: the lines at positions 0 and 1 of the result
differ in `id` or `size`. -/
theorem unique_id_size_invariant_witness :
    sampleEmpty.WF ∧ sampleEmpty.lines = [] ∧
      (runCalls sampleCalls sampleEmpty).lines[0]? = some { sampleShoeA with quantity := 2 } ∧
      (runCalls sampleCalls sampleEmpty).lines[1]? = some { sampleShoeB with quantity := 5 } ∧
      ¬ (({ sampleShoeA with quantity := 2 } : CartLineItem).id
            = ({ sampleShoeB with quantity := 5 } : CartLineItem).id ∧
          ({ sampleShoeA with quantity := 2 } : CartLineItem).size
            = ({ sampleShoeB with quantity := 5 } : CartLineItem).size) :=
  ⟨by decide, rfl, rfl, rfl,
    unique_id_size_invariant.1 sampleEmpty sampleCalls (by decide) rfl 0 1 _ _ rfl rfl
      (by decide)⟩

/-! ## Sums -/

theorem foldl_intAdd (f : CartLineItem → Int) (l : List CartLineItem) (acc : Int) :
    l.foldl (fun total item => total + f item) acc = acc + (l.map f).sum := by
  induction l generalizing acc with
  | nil => simp
  | cons a l ih =>
    rw [List.foldl_cons, ih, List.map_cons, List.sum_cons, add_assoc]

theorem badge_updateCartCount (s : Store) :
    (updateCartCount s).badge.textContent = totalQuantity s.lines := by
  unfold totalQuantity
  rw [← Int.zero_add (List.map (fun item => item.quantity) s.lines).sum]
  exact foldl_intAdd (fun item => item.quantity) s.lines 0

/-- C9. `updateCartCount` sets the badge number to the sum of the quantities of the lines
and shows the badge exactly when that sum is greater than 0; so right after `addItem`, after
an accepted `removeItem` and after `clearCart` the badge number is the total quantity of the
resulting cart. -/
theorem badge_shows_total_quantity :
    (∀ s : Store, (updateCartCount s).badge.textContent = totalQuantity s.lines ∧
      ((updateCartCount s).badge.display = .inline ↔ totalQuantity s.lines > 0) ∧
      ((updateCartCount s).badge.display = .none ↔ ¬ totalQuantity s.lines > 0)) ∧
    (∀ (s : Store) (product : CartLineItem),
      (Cart.addItem product s).badge.textContent = totalQuantity (Cart.addItem product s).lines) ∧
    (∀ (s : Store) (index : Int), (Cart.removeItem index s).1 = true →
      (Cart.removeItem index s).2.badge.textContent
        = totalQuantity (Cart.removeItem index s).2.lines) ∧
    (∀ s : Store, (Cart.clearCart s).badge.textContent = totalQuantity (Cart.clearCart s).lines) := by
  refine ⟨?_, ?_, ?_, ?_⟩
  · intro s
    have hb := badge_updateCartCount s
    refine ⟨hb, ?_, ?_⟩
    · rw [← hb]
      simp only [updateCartCount]
      split <;> simp_all
    · rw [← hb]
      simp only [updateCartCount]
      split <;> simp_all
  · intro s product
    exact badge_updateCartCount _
  · intro s index hr
    by_cases hc : index ≥ 0 ∧ index < s.cartRefs.length
    · simp only [Cart.removeItem, if_pos hc]
      exact badge_updateCartCount _
    · simp [Cart.removeItem, if_neg hc] at hr
  · intro s
    exact badge_updateCartCount _

/-- C9 on the two-line sample: removing position 0 is accepted and the badge then shows the
total quantity of what is left. -/
theorem badge_shows_total_quantity_witness :
    (Cart.removeItem 0 sampleTwoLines).1 = true ∧
      (Cart.removeItem 0 sampleTwoLines).2.badge.textContent
        = totalQuantity (Cart.removeItem 0 sampleTwoLines).2.lines :=
  ⟨by decide, badge_shows_total_quantity.2.2.1 sampleTwoLines 0 (by decide)⟩

/-! ## Saving and loading -/

/-- C7 at the failing input.  With text in the slot that is not JSON, `Cart.init` throws
the `SyntaxError` of `JSON.parse`; with no stored value or the empty string it ends normally
and leaves the state as it is, so the cart of a new page stays empty. -/
theorem init_throws_on_malformed_text :
    Cart.init sampleCorrupt = .throw .syntaxError sampleCorrupt ∧
    (∀ badge : Badge, Cart.init (Store.fresh (some .malformed) badge)
      = .throw .syntaxError (Store.fresh (some .malformed) badge)) ∧
    (∀ badge : Badge, Cart.init (Store.fresh none badge) = .normal (Store.fresh none badge)) ∧
    (∀ badge : Badge,
      Cart.init (Store.fresh (some .empty) badge) = .normal (Store.fresh (some .empty) badge)) ∧
    (∀ (slot : Option StoredText) (badge : Badge), (Store.fresh slot badge).lines = []) :=
  ⟨rfl, fun _ => rfl, fun _ => rfl, fun _ => rfl, fun _ _ => rfl⟩

/-! ## C8: the click listener of the cart list -/

/-- C8 at the failing input.  For every page and every index, a click on the decrease
control or on the increase control ends the listener with `ReferenceError: cart is not
defined`, thrown by `cart[index].quantity` before any method of `Cart` is called; a click
on the remove control ends normally with `removeItem` and a new rendering. -/
theorem quantity_controls_throw (p : Page) (index : Int) :
    UIController.onCartItemsClick (some (.decreaseQuantity, index)) p
      = .throw (.referenceError "cart") p ∧
    UIController.onCartItemsClick (some (.increaseQuantity, index)) p
      = .throw (.referenceError "cart") p ∧
    UIController.onCartItemsClick (some (.removeItem, index)) p
      = .normal (renderCart { p with store := (Cart.removeItem index p.store).2 }) :=
  ⟨rfl, rfl, rfl⟩

/-! ## The array returned by `getCart` -/

theorem getTotal_congr (s t : Store) (h : s.lines = t.lines) : Cart.getTotal s = Cart.getTotal t := by
  unfold Cart.getTotal
  rw [h]

theorem getTotal_of_lines (s : Store) (l : List CartLineItem) (h : s.lines = l) :
    Cart.getTotal s = l.foldl (fun total item => total.add (lineAmount item)) (.fin 0) := by
  unfold Cart.getTotal
  rw [h]
  rfl

theorem getCart_arrayLines (s : Store) :
    (Cart.getCart s).2.arrayLines (Cart.getCart s).1 = s.lines := by
  show ((s.arrs ++ [s.cartRefs]).getD s.arrs.length []).map s.deref = _
  rw [getD_append_length]
  rfl

theorem getCart_lines (s : Store) (h : s.WF) : (Cart.getCart s).2.lines = s.lines := by
  show ((s.arrs ++ [s.cartRefs]).getD s.cart []).map s.deref = _
  rw [getD_append_left _ _ _ _ h.1]
  rfl

theorem keepsCart_run (s : Store) (a : Nat) (ha : a ≠ s.cart) (action : ArrayAction) (st : Store)
    (hk : KeepsCart s st) : KeepsCart s (action.run a st) := by
  obtain ⟨hc, hrefs, more, hobjs⟩ := hk
  cases action with
  | setContents refs =>
    refine ⟨hc, ?_, more, hobjs⟩
    show (st.arrs.set a refs).getD s.cart [] = _
    rw [getD_set_ne _ _ _ _ _ (Ne.symm ha), hrefs]
  | newObject item =>
    refine ⟨hc, hrefs, more ++ [item], ?_⟩
    show s.objs ++ (more ++ [item]) = st.objs ++ [item]
    rw [← hobjs, List.append_assoc]

theorem keepsCart_runArrayActions (s : Store) (a : Nat) (ha : a ≠ s.cart)
    (actions : List ArrayAction) (st : Store) (hk : KeepsCart s st) :
    KeepsCart s (runArrayActions a actions st) := by
  induction actions generalizing st with
  | nil => exact hk
  | cons action actions ih => exact ih (action.run a st) (keepsCart_run s a ha action st hk)

theorem lines_of_keepsCart (s : Store) (st : Store) (h : s.WF)
    (hk : KeepsCart s st) : st.lines = s.lines := by
  obtain ⟨hc, hrefs, more, hobjs⟩ := hk
  show (st.arrs.getD st.cart []).map (fun x => st.objs.getD x default) = _
  rw [hc, hrefs, ← hobjs, lines_eq]
  apply List.map_congr_left
  intro x hx
  exact getD_append_left _ _ _ _ (h.2.1 x hx)


theorem keepsCart_getCart (s : Store) (h : s.WF) : KeepsCart s (Cart.getCart s).2 := by
  refine ⟨rfl, ?_, [], List.append_nil _⟩
  show (s.arrs ++ [s.cartRefs]).getD s.cart [] = _
  rw [getD_append_left _ _ _ _ h.1]
  rfl

/-! ## C10: `getCart` -/

/-- C10, as the code has it.  For every well-formed store, `getCart` returns a new array
that holds the line objects of the cart themselves, in order, so its lines equal the lines
of the cart; the call changes nothing of the cart, the slot, the badge or the objects; and
whatever a caller then does to the returned array (new contents of any kind; objects of its
own), a later `getCart` and a later `getTotal` return what they returned before. -/
theorem getCart_is_shallow_copy (s : Store) (h : s.WF) :
    (Cart.getCart s).2.arrs.getD (Cart.getCart s).1 [] = s.cartRefs ∧
    (Cart.getCart s).2.arrayLines (Cart.getCart s).1 = s.lines ∧
    (Cart.getCart s).1 ≠ (Cart.getCart s).2.cart ∧
    (Cart.getCart s).2.lines = s.lines ∧
    (Cart.getCart s).2.cart = s.cart ∧ (Cart.getCart s).2.objs = s.objs ∧
    (Cart.getCart s).2.slot = s.slot ∧ (Cart.getCart s).2.badge = s.badge ∧
    ∀ actions : List ArrayAction,
      (runArrayActions (Cart.getCart s).1 actions (Cart.getCart s).2).lines = s.lines ∧
      Cart.getTotal (runArrayActions (Cart.getCart s).1 actions (Cart.getCart s).2)
        = Cart.getTotal s ∧
      (Cart.getCart (runArrayActions (Cart.getCart s).1 actions (Cart.getCart s).2)).2.arrayLines
          (Cart.getCart (runArrayActions (Cart.getCart s).1 actions (Cart.getCart s).2)).1
        = s.lines := by
  have hne : (Cart.getCart s).1 ≠ s.cart := Nat.ne_of_gt h.1
  refine ⟨getD_append_length _ _ _, getCart_arrayLines s, hne, getCart_lines s h, rfl, rfl, rfl,
    rfl, ?_⟩
  intro actions
  have hk := keepsCart_runArrayActions s _ hne actions _ (keepsCart_getCart s h)
  have hl := lines_of_keepsCart s _ h hk
  refine ⟨hl, getTotal_congr _ _ hl, ?_⟩
  rw [getCart_arrayLines, hl]

/-- C10 on the two-line sample: the caller empties the array it received and the cart still
has its two lines. -/
theorem getCart_is_shallow_copy_witness :
    sampleTwoLines.WF ∧
      (runArrayActions (Cart.getCart sampleTwoLines).1 [.setContents []]
        (Cart.getCart sampleTwoLines).2).lines = sampleTwoLines.lines :=
  ⟨by decide, ((getCart_is_shallow_copy sampleTwoLines (by decide)).2.2.2.2.2.2.2.2
    [.setContents []]).1⟩

/-- C10 fails as stated: on the two-line sample a caller that executes
`Cart.getCart()[0].quantity = 99` changes the quantity of the first line of the cart from 1
to 99 and the total from 149 to 5049. -/
theorem field_write_reaches_cart :
    sampleTwoLines.WF ∧
      sampleTwoLines.lines.map (fun item => item.quantity) = [1, 2] ∧
      Cart.getTotal sampleTwoLines = .fin 149 ∧
      (callerSetQuantity (Cart.getCart sampleTwoLines).1 0 99
        (Cart.getCart sampleTwoLines).2).lines.map (fun item => item.quantity) = [99, 2] ∧
      Cart.getTotal (callerSetQuantity (Cart.getCart sampleTwoLines).1 0 99
        (Cart.getCart sampleTwoLines).2) = .fin 5049 := by
  refine ⟨by decide, rfl, ?_, rfl, ?_⟩
  · have hl : sampleTwoLines.lines = [sampleShoeA, sampleShoeB] := rfl
    rw [getTotal_of_lines _ _ hl]
    simp only [List.foldl, lineAmount, sampleShoeA, sampleShoeB, JSValue.toNumber,
      JSNumber.ofInt, JSNumber.mul, JSNumber.add]
    norm_num
  · have hl : (callerSetQuantity (Cart.getCart sampleTwoLines).1 0 99
        (Cart.getCart sampleTwoLines).2).lines
          = [{ sampleShoeA with quantity := 99 }, sampleShoeB] := rfl
    rw [getTotal_of_lines _ _ hl]
    simp only [List.foldl, lineAmount, sampleShoeA, sampleShoeB, JSValue.toNumber,
      JSNumber.ofInt, JSNumber.mul, JSNumber.add]
    norm_num

end SreyNeath
